import Mathlib

/-!
Verification development for the ClickHouse TCP connection handler
(`src/Server/TCPHandler.h`) and the join query-plan step
(`src/Processors/QueryPlan/JoinStep.cpp`).

The data model and operations below are a shallow embedding of those
sources.  Where only a declaration is present in the sources (the member
function bodies of `TCPHandler` live in a `.cpp` file that is not part of
this repository snapshot), the corresponding operation is modelled from the
specification document; each such definition says so in its doc comment.
-/

/-! ## Protocol enumerations (from `src/Server/TCPHandler.h` and `Core/Protocol.h`) -/

/-- `Protocol::Compression`: whether the data channel of a query is compressed. -/
inductive Compression
  | Disable
  | Enable
deriving DecidableEq, Repr

/-- `QueryProcessingStage::Enum` (abridged to the values the handler stores). -/
inductive QueryProcessingStage
  | FetchColumns
  | WithMergeableState
  | Complete
deriving DecidableEq, Repr

/-- `QueryState::CancellationStatus` from `TCPHandler.h`. -/
inductive CancellationStatus
  | FULLY_CANCELLED
  | READ_CANCELLED
  | NOT_CANCELLED
deriving DecidableEq, Repr

/-- Strictness rank of a cancellation status: `NOT_CANCELLED` is the least
strict, `FULLY_CANCELLED` the most strict.  (In the C++ enum the numeric value
runs the other way, which is why escalating is called "decreasing".) -/
def CancellationStatus.rank : CancellationStatus → Nat
  | .NOT_CANCELLED => 0
  | .READ_CANCELLED => 1
  | .FULLY_CANCELLED => 2

/-! ## Blocks and columns

A block is a set of named, typed columns of equal-shaped data.  Cell values
are abstracted to `Nat`; the byte layout of primitive fields is explicitly
out of scope for the spec. -/

/-- One column of a block: name, type name, and cell data. -/
structure Column where
  name : String
  typ : String
  data : List Nat
deriving DecidableEq, Repr

/-- A columnar block. -/
abbrev Block := List Column

/-- Row count of a block: the length of its first column (0 for an empty block). -/
def Block.rowCount (b : Block) : Nat :=
  match b with
  | [] => 0
  | c :: _ => c.data.length

/-- A parsed query, abstracted to what the handler inspects:
whether it is an INSERT and, if so, whether it carries a SELECT clause
(`ASTInsertQuery::select`). -/
structure ASTQuery where
  isInsert : Bool
  hasSelect : Bool
  text : String
deriving DecidableEq, Repr

/-- `Progress`: accumulated rows/bytes counters (`IO/Progress.h`). -/
structure Progress where
  read_rows : Nat := 0
  read_bytes : Nat := 0
deriving DecidableEq, Repr

/-- `Stopwatch`: a monotonic stopwatch, abstracted to its start timestamp. -/
structure Stopwatch where
  start_ns : Nat := 0
deriving DecidableEq, Repr

/-- `BlockIO`: handle to the executing pipeline, abstracted to an identifier
(`0` meaning the default-constructed empty handle). -/
structure BlockIO where
  pipeline_id : Nat := 0
deriving DecidableEq, Repr

/-- `TimeoutSetter` handle, abstracted to an identifier. -/
structure TimeoutSetter where
  id : Nat := 0
deriving DecidableEq, Repr

/-- A UUID, abstracted. -/
abbrev UUID := Nat

/-! ## QueryState (from `src/Server/TCPHandler.h`, lines 51-133)

Each field mirrors one member of the C++ struct, with the same default
initializer.  Owning pointers (`unique_ptr`/`shared_ptr`, default `nullptr`)
become `Option` of an abstract handle, `none` by default. -/

/-- `QueryState`: state of query processing, one per connection at a time. -/
structure QueryState where
  query_id : String := ""
  stage : QueryProcessingStage := .Complete
  compression : Compression := .Disable
  logs_queue : Option Nat := none
  logs_block_out : Option Nat := none
  profile_queue : Option Nat := none
  profile_events_block_out : Option Nat := none
  maybe_compressed_in : Option Nat := none
  block_in : Option Nat := none
  maybe_compressed_out : Option Nat := none
  block_out : Option Nat := none
  block_for_insert : Block := []
  query : String := ""
  parsed_query : Option ASTQuery := none
  io : BlockIO := {}
  cancellation_status : CancellationStatus := .NOT_CANCELLED
  is_connection_closed : Bool := false
  is_empty : Bool := true
  sent_all_data : Bool := false
  need_receive_data_for_insert : Bool := false
  read_all_data : Bool := false
  part_uuids_to_ignore : Option (List UUID) := none
  need_receive_data_for_input : Bool := false
  block_for_input : Block := []
  input_header : Block := []
  skipping_data : Bool := false
  progress : Progress := {}
  watch : Stopwatch := {}
  prev_elapsed_ns : Nat := 0
  timeout_setter : Option TimeoutSetter := none
deriving DecidableEq, Repr

/-- `QueryState::reset()`: `*this = QueryState();` — replace the whole state
with a freshly default-constructed one. -/
def QueryState.reset (_ : QueryState) : QueryState := {}

/-- `QueryState::empty()`. -/
def QueryState.isEmptyState (s : QueryState) : Bool := s.is_empty

/-! ## JoinStep (from `src/Processors/QueryPlan/JoinStep.cpp`) -/

/-- `JoinPipelineType` (from `Interpreters/IJoin.h`): how the join consumes
its two inputs. -/
inductive JoinPipelineType
  | FillRightFirst
  | YShaped
deriving DecidableEq, Repr

/-- The data members of `JoinStep` that `updatePipeline` reads.  The join
object itself is abstracted to its pipeline type. -/
structure JoinStepData where
  pipelineType : JoinPipelineType
  max_block_size : Nat
  max_streams : Nat
  keep_left_read_in_order : Bool
  shuffle_optimize_buckets : Nat
  shuffle_optimize_max : Nat
deriving DecidableEq, Repr

/-- The exception kinds `JoinStep::updatePipeline` can throw. -/
inductive JoinError
  | logicalError (msg : String)
deriving DecidableEq, Repr

/-- The joined pipeline built by `JoinStep::updatePipeline`, tagged by which
`QueryPipelineBuilder` constructor produced it (each remembers the two input
pipelines, abstracted to identifiers). -/
inductive JoinedPipeline
  | rightLeft (l r : Nat)
  | yShaped (l r : Nat)
  | yShapedWithShuffle (l r : Nat)
deriving DecidableEq, Repr

/-- `JoinStep::updatePipeline` (JoinStep.cpp lines 32-75).  Throws
`LOGICAL_ERROR` unless exactly two input pipelines are given; in the YShaped
case with more than one shuffle bucket it additionally requires
`shuffle_optimize_max >= shuffle_optimize_buckets - 1` before building the
shuffle-optimized pipeline. -/
def JoinStepData.updatePipeline (step : JoinStepData) (pipelines : List Nat) :
    Except JoinError JoinedPipeline :=
  match pipelines with
  | [l, r] =>
    match step.pipelineType with
    | .YShaped =>
      if step.shuffle_optimize_buckets > 1 then
        if step.shuffle_optimize_max < step.shuffle_optimize_buckets - 1 then
          .error (.logicalError "Max key value must be at least number of shuffle buckets - 1")
        else
          .ok (.yShapedWithShuffle l r)
      else
        .ok (.yShaped l r)
    | .FillRightFirst => .ok (.rightLeft l r)
  | _ => .error (.logicalError "JoinStep expect two input steps")

/-! ## Cancellation (spec-modelled: the body of
`TCPHandler::decreaseCancellationStatus` is in `TCPHandler.cpp`, which is not
part of this snapshot; only the declaration at `TCPHandler.h:319` is) -/

/-- Modelled from the spec: `TCPHandler::decreaseCancellationStatus` (body
missing from the sources).  Per the spec, each cancellation signal moves the
status one step stricter — `NOT_CANCELLED → READ_CANCELLED` (stop providing
more input data, finish output) `→ FULLY_CANCELLED` (abort output too) — and
the status never decreases in strictness within one query. -/
def decreaseCancellationStatus : CancellationStatus → CancellationStatus
  | .NOT_CANCELLED => .READ_CANCELLED
  | .READ_CANCELLED => .FULLY_CANCELLED
  | .FULLY_CANCELLED => .FULLY_CANCELLED

/-! ## Receiving a query (spec-modelled: the body of
`TCPHandler::receiveQuery` is in the missing `TCPHandler.cpp`; only the
declaration at `TCPHandler.h:265` is present) -/

/-- A client Query packet, abstracted to the fields the handler stores into
`QueryState`, plus whether the client indicates it will send data. -/
structure QueryPacket where
  query_id : String
  text : String
  parsed : ASTQuery
  stage : QueryProcessingStage
  compression : Compression
  clientWillSendData : Bool
deriving DecidableEq, Repr

/-- Modelled from the spec: `TCPHandler::receiveQuery` (body missing from the
sources).  Accepting the query packet establishes
`QueryState.query/parsed_query/stage/compression` and determines
`need_receive_data_for_insert` from the query kind: true only for a bare
INSERT (not INSERT…SELECT), and only when the client indicates it will send
data. -/
def receiveQuery (s : QueryState) (pkt : QueryPacket) : QueryState :=
  { s with
    query_id := pkt.query_id
    query := pkt.text
    parsed_query := some pkt.parsed
    stage := pkt.stage
    compression := pkt.compression
    is_empty := false
    need_receive_data_for_insert :=
      pkt.parsed.isInsert && !pkt.parsed.hasSelect && pkt.clientWillSendData }

/-! ## Progress accounting (spec-modelled: the bodies of
`TCPHandler::updateProgress` and `TCPHandler::sendProgress` are in the
missing `TCPHandler.cpp`; only the declarations at `TCPHandler.h:296,323` and
the field comment "the difference after the previous sending of progress" at
`TCPHandler.h:116-117` are present) -/

/-- Pointwise addition of progress counters
(`Progress::incrementPiecewiseAtomically`). -/
def Progress.add (p v : Progress) : Progress :=
  { read_rows := p.read_rows + v.read_rows
    read_bytes := p.read_bytes + v.read_bytes }

/-- One progress-relevant event during a query: either the pipeline reports
an increment (a call to `updateProgress` from a worker thread), or the
controller flushes progress to the client (a call to `sendProgress`). -/
inductive ProgressEvent
  | inc (v : Progress)
  | flush
deriving DecidableEq, Repr

/-- Modelled from the spec: the progress state machine of one query.
`updateProgress` accumulates each increment into `QueryState.progress`;
`sendProgress` fetches the accumulated value, transmits it as a delta, and
resets the accumulator to zero.  Returns the final accumulator (the delta not
yet sent) and the list of transmitted deltas, in order. -/
def runProgress : List ProgressEvent → Progress → Progress × List Progress
  | [], p => (p, [])
  | .inc v :: evs, p => runProgress evs (p.add v)
  | .flush :: evs, p =>
    let rest := runProgress evs {}
    (rest.1, p :: rest.2)

/-- The pipeline's true cumulative row total over a query's events. -/
def totalRows (evs : List ProgressEvent) : Nat :=
  (evs.map fun e => match e with | .inc v => v.read_rows | .flush => 0).sum

/-- The pipeline's true cumulative byte total over a query's events. -/
def totalBytes (evs : List ProgressEvent) : Nat :=
  (evs.map fun e => match e with | .inc v => v.read_bytes | .flush => 0).sum

/-- Sum of the row counts of a list of transmitted progress deltas. -/
def deltasRowSum (l : List Progress) : Nat := (l.map Progress.read_rows).sum

/-- Sum of the byte counts of a list of transmitted progress deltas. -/
def deltasByteSum (l : List Progress) : Nat := (l.map Progress.read_bytes).sum

/-! ## Native block codec (spec-modelled: `NativeWriter`/`NativeReader` and
`TCPHandler::initBlockInput`/`initBlockOutput` (TCPHandler.h:311-315) have no
bodies in this snapshot.  The spec leaves the byte-for-byte layout of
primitive fields out of scope, so the stream is modelled at the granularity
of primitive tokens — a number or a string — rather than raw bytes.) -/

/-- One primitive field on the wire: a (varint-encoded) number or a
(length-prefixed) string. -/
inductive Token
  | nat (n : Nat)
  | str (s : String)
deriving DecidableEq, Repr

/-- Modelled from the spec: the block-output codec's serialization of one
column — name, type, row count, then the cells. -/
def serializeColumn (c : Column) : List Token :=
  .str c.name :: .str c.typ :: .nat c.data.length :: c.data.map .nat

/-- Modelled from the spec: the block-output codec's serialization of a
block — column count, then each column in order. -/
def serializeBlock (b : Block) : List Token :=
  .nat b.length :: (b.map serializeColumn).flatten

/-- Parse `k` numeric cells from the token stream. -/
def parseCells (k : Nat) (ts : List Token) : Option (List Nat × List Token) :=
  match k, ts with
  | 0, ts => some ([], ts)
  | k + 1, .nat n :: ts =>
    (parseCells k ts).map fun r => (n :: r.1, r.2)
  | _ + 1, _ => none

/-- Parse one column from the token stream. -/
def parseColumn (ts : List Token) : Option (Column × List Token) :=
  match ts with
  | .str name :: .str typ :: .nat len :: ts =>
    (parseCells len ts).map fun r => (⟨name, typ, r.1⟩, r.2)
  | _ => none

/-- Parse `k` columns from the token stream. -/
def parseColumns (k : Nat) (ts : List Token) : Option (List Column × List Token) :=
  match k with
  | 0 => some ([], ts)
  | k + 1 =>
    (parseColumn ts).bind fun r =>
      (parseColumns k r.2).map fun r2 => (r.1 :: r2.1, r2.2)

/-- Modelled from the spec: the block-input codec's deserialization of a
block, returning the block and the unconsumed remainder of the stream. -/
def deserializeBlock (ts : List Token) : Option (Block × List Token) :=
  match ts with
  | .nat k :: ts => parseColumns k ts
  | _ => none

/-- Modelled from the spec: the compression wrapper of the data channel.
With compression enabled the payload travels inside a framed envelope
(length header plus payload); with compression disabled it travels bare. -/
def compressTokens : Compression → List Token → List Token
  | .Disable, ts => ts
  | .Enable, ts => .nat ts.length :: ts

/-- Modelled from the spec: undo the compression wrapper, checking the
envelope's frame. -/
def decompressTokens : Compression → List Token → Option (List Token)
  | .Disable, ts => some ts
  | .Enable, .nat n :: ts => if ts.length = n then some ts else none
  | .Enable, _ => none

/-- Modelled from the spec: the block-output codec set up by
`initBlockOutput` — serialize the block, then apply the query's compression
mode. -/
def writeBlock (m : Compression) (b : Block) : List Token :=
  compressTokens m (serializeBlock b)

/-- Modelled from the spec: the block-input codec set up by
`initBlockInput` — undo compression with the same mode, then deserialize one
block, requiring the stream to be exactly consumed. -/
def readBlock (m : Compression) (ts : List Token) : Option Block :=
  (decompressTokens m ts).bind fun payload =>
    (deserializeBlock payload).bind fun r =>
      if r.2 = [] then some r.1 else none

/-! ## Skipping trailing input after an exception (spec-modelled: the bodies
of `TCPHandler::skipData`, `receiveData` and `receiveUnexpectedData` are in
the missing `TCPHandler.cpp`; only the declarations at `TCPHandler.h:269-275`,
the `skipping_data` field at 113-114 and `last_block_in` at 244-245 are
present) -/

/-- `LastBlockInputParameters` (TCPHandler.h:136-139): remembers the
compression mode used for the most recently received data block. -/
structure LastBlockInputParameters where
  compression : Compression := .Disable
deriving DecidableEq, Repr

/-- A client-to-server packet, abstracted to the kinds that can arrive while
the query's remaining input is being skipped. -/
inductive ClientPacket
  | dataPacket (payload : List Token)
  | queryPacket (pkt : QueryPacket)
  | cancelPacket
  | pingPacket
deriving DecidableEq, Repr

/-- Modelled from the spec: `TCPHandler::skipData` (body missing from the
sources).  After a fault raised before the input stream was drained, the
controller decodes every further data packet of the query — using the
compression mode remembered in `last_block_in` — and discards the resulting
block instead of processing it, until the client's terminal empty data block;
it then returns the remaining, still correctly framed, byte stream.  A
non-data packet or an undecodable payload is a protocol fault (`none`). -/
def skipData (lbi : LastBlockInputParameters) :
    List ClientPacket → Option (List ClientPacket)
  | [] => none
  | .dataPacket payload :: rest =>
    match readBlock lbi.compression payload with
    | none => none
    | some b => if b = [] then some rest else skipData lbi rest
  | _ => none

/-! ## Per-query packet trace (spec-modelled: `TCPHandler::runImpl`,
`processOrdinaryQuery`, `sendEndOfStream` and `sendException` have no bodies
in this snapshot; only the declarations at `TCPHandler.h:255,287,295,298`
are present) -/

/-- A server-to-client packet of one query. -/
inductive ServerPacket
  | dataPacket (b : Block)
  | logPacket (b : Block)
  | progressPacket (p : Progress)
  | profileEventsPacket
  | profileInfoPacket
  | totalsPacket (b : Block)
  | extremesPacket (b : Block)
  | endOfStreamPacket
  | exceptionPacket (code : Nat) (msg : String)
deriving DecidableEq, Repr

/-- Whether a packet is terminal for the query: `EndOfStream` or `Exception`. -/
def ServerPacket.isTerminal : ServerPacket → Bool
  | .endOfStreamPacket => true
  | .exceptionPacket _ _ => true
  | _ => false

/-- One thing the controller observes becoming ready while the query
executes: a result block, a log flush, a progress flush, or a profile-events
flush. -/
inductive StreamEvent
  | outBlock (b : Block)
  | logFlush (b : Block)
  | progressFlush (p : Progress)
  | profileFlush
deriving DecidableEq, Repr

/-- The packet sent for one mid-query event. -/
def StreamEvent.toPacket : StreamEvent → ServerPacket
  | .outBlock b => .dataPacket b
  | .logFlush b => .logPacket b
  | .progressFlush p => .progressPacket p
  | .profileFlush => .profileEventsPacket

/-- How a query that entered EXECUTING/SENDING_RESULTS ends: pipeline
completion (with optional totals/extremes and a profile summary),
cancellation, or a fault. -/
inductive QueryOutcome
  | success (totals extremes : Option Block) (hasProfileInfo : Bool)
  | cancelled
  | fault (code : Nat) (msg : String)
deriving DecidableEq, Repr

/-- Modelled from the spec: the packets the controller sends after the
pipeline finishes, before the terminal packet — totals/extremes/profile-info
if applicable and a final profile-events flush on success; cancellation is
surfaced as a normal end of stream; a fault is reported as a single
exception packet. -/
def preTerminalPackets : QueryOutcome → List ServerPacket
  | .success t e hpi =>
    (t.map ServerPacket.totalsPacket).toList ++
      (e.map ServerPacket.extremesPacket).toList ++
      (if hpi then [ServerPacket.profileInfoPacket] else []) ++
      [ServerPacket.profileEventsPacket]
  | .cancelled => [ServerPacket.profileEventsPacket]
  | .fault _ _ => []

/-- Modelled from the spec: the terminal packet of the query — `EndOfStream`
on success or cancellation, `Exception` on a fault. -/
def terminalPacket : QueryOutcome → ServerPacket
  | .success _ _ _ => .endOfStreamPacket
  | .cancelled => .endOfStreamPacket
  | .fault c m => .exceptionPacket c m

/-- Modelled from the spec: the full terminal packet sequence of a query. -/
def terminalPackets (o : QueryOutcome) : List ServerPacket :=
  preTerminalPackets o ++ [terminalPacket o]

/-- Modelled from the spec: the server-to-client packet trace of one query
that entered EXECUTING/SENDING_RESULTS — the packets for the mid-query
events in the order the controller observed them ready, then the terminal
sequence — together with the query state after the controller's final
`reset()`. -/
def runQueryStreaming (events : List StreamEvent) (o : QueryOutcome)
    (s : QueryState) : List ServerPacket × QueryState :=
  (events.map StreamEvent.toPacket ++ terminalPackets o, s.reset)

/-! ## Serialization of the outbound socket (spec-modelled: the send-method
bodies are in the missing `TCPHandler.cpp`; `src/Server/TCPHandler.h:233-235`
declares `out_mutex` with the comment that it protects `out` and is used by
`sendData()`, `sendProgress()`, `sendLogs()`, etc.  The control thread and
the worker-thread callbacks are modelled as threads each holding a queue of
packets to write; a send takes the mutex, writes its packet byte by byte,
and releases the mutex.) -/

/-- The shared state of the outbound socket: per-thread queues of packets
still to send, the mutex holder (the written and remaining bytes of the
packet being sent, `none` when the mutex is free), the bytes on the wire so
far, and the (ghost) list of fully sent packets. -/
structure WireSys where
  threads : List (List (List Nat))
  holder : Option (List Nat × List Nat)
  wire : List Nat
  sent : List (List Nat)
deriving DecidableEq, Repr

/-- Every packet some thread is asked to send. -/
def allPackets (s : WireSys) : List (List Nat) := s.threads.flatten

/-- The bytes of the in-flight packet already written to the wire. -/
def holderWritten (s : WireSys) : List Nat :=
  match s.holder with
  | none => []
  | some hw => hw.1

/-- Modelled from the spec: one scheduler step of the connection.  A thread
may acquire the free `out_mutex` to start sending its next packet; the
holder may write the next byte of its packet to the wire; the holder may
release the mutex once its packet is fully written. -/
inductive WireStep : WireSys → WireSys → Prop
  | acquire (s : WireSys) (i : Nat) (pkt : List Nat) (rest : List (List Nat))
      (hfree : s.holder = none)
      (hq : s.threads.get? i = some (pkt :: rest)) :
      WireStep s { s with threads := s.threads.set i rest, holder := some ([], pkt) }
  | writeByte (s : WireSys) (w : List Nat) (b : Nat) (bs : List Nat)
      (hh : s.holder = some (w, b :: bs)) :
      WireStep s { s with wire := s.wire ++ [b], holder := some (w ++ [b], bs) }
  | release (s : WireSys) (w : List Nat)
      (hh : s.holder = some (w, [])) :
      WireStep s { s with holder := none, sent := s.sent ++ [w] }

/-- Any interleaving of scheduler steps. -/
def WireReachable : WireSys → WireSys → Prop :=
  Relation.ReflTransGen WireStep

/-- The serialization invariant: the wire is the concatenation of the fully
sent packets followed by the written part of the in-flight packet; every
fully sent or in-flight packet, and every still-queued packet, is one of the
packets `ps` the threads were asked to send. -/
def WireInv (ps : List (List Nat)) (s : WireSys) : Prop :=
  s.wire = s.sent.flatten ++ holderWritten s ∧
  (∀ p ∈ s.sent, p ∈ ps) ∧
  (∀ w r, s.holder = some (w, r) → w ++ r ∈ ps) ∧
  (∀ q ∈ s.threads, ∀ p ∈ q, p ∈ ps)

/-- Accounting invariant of the progress state machine: transmitted deltas
plus the not-yet-sent residual always equal the initial accumulator plus the
cumulative increments. -/
theorem runProgress_rows_invariant (evs : List ProgressEvent) (p : Progress) :
    deltasRowSum (runProgress evs p).2 + (runProgress evs p).1.read_rows =
      p.read_rows + totalRows evs := by
  induction evs generalizing p with
  | nil => simp [runProgress, deltasRowSum, totalRows]
  | cons e evs ih =>
    cases e with
    | inc v =>
      simp only [runProgress, totalRows, List.map_cons, List.sum_cons]
      rw [ih]
      simp [Progress.add, totalRows]
      omega
    | flush =>
      simp only [runProgress, totalRows, List.map_cons, List.sum_cons,
        deltasRowSum]
      have := ih {}
      simp only [deltasRowSum, totalRows] at this
      omega

/-- Accounting invariant of the progress state machine, byte version. -/
theorem runProgress_bytes_invariant (evs : List ProgressEvent) (p : Progress) :
    deltasByteSum (runProgress evs p).2 + (runProgress evs p).1.read_bytes =
      p.read_bytes + totalBytes evs := by
  induction evs generalizing p with
  | nil => simp [runProgress, deltasByteSum, totalBytes]
  | cons e evs ih =>
    cases e with
    | inc v =>
      simp only [runProgress, totalBytes, List.map_cons, List.sum_cons]
      rw [ih]
      simp [Progress.add, totalBytes]
      omega
    | flush =>
      simp only [runProgress, totalBytes, List.map_cons, List.sum_cons,
        deltasByteSum]
      have := ih {}
      simp only [deltasByteSum, totalBytes] at this
      omega

/-- After a trace whose last event is a flush, the accumulator is zero. -/
theorem runProgress_final_flush (evs : List ProgressEvent) (p : Progress) :
    (runProgress (evs ++ [.flush]) p).1 = {} := by
  induction evs generalizing p with
  | nil => rfl
  | cons e evs ih =>
    cases e with
    | inc v => simpa [runProgress] using ih (p.add v)
    | flush => simpa [runProgress] using ih {}

/-! ## Theorems -/

/-- Claim C1: within a single query, the cancellation status is monotone in
strictness under `decreaseCancellationStatus` (the only operation besides
`reset` that touches it): it never returns to `NOT_CANCELLED`, once
`FULLY_CANCELLED` is reached it stays, and the only transitions are
`NOT_CANCELLED → READ_CANCELLED` and `READ_CANCELLED → FULLY_CANCELLED`. -/
theorem cancellation_status_monotone :
    (∀ s, s.rank ≤ (decreaseCancellationStatus s).rank) ∧
    (∀ s, decreaseCancellationStatus s ≠ .NOT_CANCELLED) ∧
    decreaseCancellationStatus .FULLY_CANCELLED = .FULLY_CANCELLED ∧
    (∀ s, (s = .NOT_CANCELLED ∧ decreaseCancellationStatus s = .READ_CANCELLED) ∨
      (s = .READ_CANCELLED ∧ decreaseCancellationStatus s = .FULLY_CANCELLED) ∨
      (s = .FULLY_CANCELLED ∧ decreaseCancellationStatus s = .FULLY_CANCELLED)) := by
  refine ⟨?_, ?_, rfl, ?_⟩ <;> intro s <;> cases s <;> simp [decreaseCancellationStatus,
    CancellationStatus.rank]

/-- Claim C4: after accepting a query packet, `need_receive_data_for_insert`
is true exactly when the parsed query is a bare INSERT (not INSERT…SELECT)
and the client has indicated it will send data. -/
theorem receiveQuery_need_receive_data_for_insert
    (s : QueryState) (pkt : QueryPacket) :
    (receiveQuery s pkt).need_receive_data_for_insert = true ↔
      (pkt.parsed.isInsert = true ∧ pkt.parsed.hasSelect = false ∧
        pkt.clientWillSendData = true) := by
  simp [receiveQuery, and_assoc]

/-- Claim C5: starting from the zero counter at query start, each flush
transmits the delta accumulated since the previous flush, and over a query
whose increments total `N` rows (resp. bytes), a trace ending in a final
flush transmits deltas summing exactly to `N`. -/
theorem progress_deltas_sum_to_total (evs : List ProgressEvent) :
    deltasRowSum (runProgress (evs ++ [.flush]) {}).2 = totalRows evs ∧
    deltasByteSum (runProgress (evs ++ [.flush]) {}).2 = totalBytes evs := by
  have hr := runProgress_rows_invariant (evs ++ [.flush]) {}
  have hb := runProgress_bytes_invariant (evs ++ [.flush]) {}
  rw [runProgress_final_flush] at hr hb
  have hrtot : totalRows (evs ++ [.flush]) = totalRows evs := by
    simp [totalRows]
  have hbtot : totalBytes (evs ++ [.flush]) = totalBytes evs := by
    simp [totalBytes]
  rw [hrtot] at hr
  rw [hbtot] at hb
  constructor
  · simpa using hr
  · simpa using hb

/-- Claim C2: for every `QueryState`, whatever its current field values,
`reset()` yields exactly the freshly default-constructed state; hence
`reset` is idempotent (it is total because it is a Lean function defined on
all of `QueryState`). -/
theorem queryState_reset_total_and_idempotent (s : QueryState) :
    s.reset = ({} : QueryState) ∧ s.reset.reset = s.reset := by
  constructor <;> rfl

/-- Claim C9: `JoinStep::updatePipeline` throws the `LOGICAL_ERROR`
"JoinStep expect two input steps" for every input pipeline list whose size
is not 2, and returns a built pipeline only when the size is exactly 2. -/
theorem joinStep_updatePipeline_requires_two_inputs
    (step : JoinStepData) (pipelines : List Nat) :
    (pipelines.length ≠ 2 →
      step.updatePipeline pipelines =
        .error (.logicalError "JoinStep expect two input steps")) ∧
    (∀ built, step.updatePipeline pipelines = .ok built → pipelines.length = 2) := by
  constructor
  · intro hlen
    match pipelines with
    | [] => rfl
    | [_] => rfl
    | [_, _] => exact absurd rfl hlen
    | _ :: _ :: _ :: _ => rfl
  · intro built hok
    match pipelines with
    | [] => exact absurd hok (by simp [JoinStepData.updatePipeline])
    | [_] => exact absurd hok (by simp [JoinStepData.updatePipeline])
    | [_, _] => rfl
    | _ :: _ :: _ :: _ => exact absurd hok (by simp [JoinStepData.updatePipeline])

/-- Witness for C9: at the concrete empty pipeline list the error is raised,
and at a concrete two-element list the ok-case implies length 2. -/
theorem joinStep_updatePipeline_requires_two_inputs_witness :
    (⟨.YShaped, 1, 1, false, 0, 0⟩ : JoinStepData).updatePipeline [] =
      .error (.logicalError "JoinStep expect two input steps") := by
  exact (joinStep_updatePipeline_requires_two_inputs ⟨.YShaped, 1, 1, false, 0, 0⟩ []).1
    (by decide)

/-- Claim C10: in the YShaped case with `shuffle_optimize_buckets > 1`,
`updatePipeline` throws the `LOGICAL_ERROR` about the max key value exactly
when `shuffle_optimize_max < shuffle_optimize_buckets - 1`, and otherwise
builds the shuffle-optimized joined pipeline. -/
theorem joinStep_updatePipeline_shuffle_bounds
    (step : JoinStepData) (l r : Nat)
    (hty : step.pipelineType = .YShaped)
    (hb : step.shuffle_optimize_buckets > 1) :
    (step.shuffle_optimize_max < step.shuffle_optimize_buckets - 1 →
      step.updatePipeline [l, r] =
        .error (.logicalError
          "Max key value must be at least number of shuffle buckets - 1")) ∧
    (step.shuffle_optimize_max ≥ step.shuffle_optimize_buckets - 1 →
      step.updatePipeline [l, r] = .ok (.yShapedWithShuffle l r)) := by
  constructor
  · intro hlt
    simp [JoinStepData.updatePipeline, hty, hb, hlt]
  · intro hge
    simp [JoinStepData.updatePipeline, hty, hb, Nat.not_lt.mpr hge]

/-- Witness for C10: with 4 buckets, max 2 raises the error and max 3 builds
the shuffle-optimized pipeline. -/
theorem joinStep_updatePipeline_shuffle_bounds_witness :
    (⟨.YShaped, 8, 4, false, 4, 2⟩ : JoinStepData).updatePipeline [10, 11] =
      .error (.logicalError
        "Max key value must be at least number of shuffle buckets - 1") ∧
    (⟨.YShaped, 8, 4, false, 4, 3⟩ : JoinStepData).updatePipeline [10, 11] =
      .ok (.yShapedWithShuffle 10 11) :=
  ⟨(joinStep_updatePipeline_shuffle_bounds ⟨.YShaped, 8, 4, false, 4, 2⟩ 10 11
      rfl (by decide)).1 (by decide),
   (joinStep_updatePipeline_shuffle_bounds ⟨.YShaped, 8, 4, false, 4, 3⟩ 10 11
      rfl (by decide)).2 (by decide)⟩

/-- Parsing inverts serialization for a run of numeric cells. -/
theorem parseCells_serialized (ns : List Nat) (rest : List Token) :
    parseCells ns.length (ns.map .nat ++ rest) = some (ns, rest) := by
  induction ns with
  | nil => rfl
  | cons n ns ih => simp [parseCells, ih]

/-- Parsing inverts serialization for one column. -/
theorem parseColumn_serialized (c : Column) (rest : List Token) :
    parseColumn (serializeColumn c ++ rest) = some (c, rest) := by
  simp [serializeColumn, parseColumn, parseCells_serialized]

/-- Parsing inverts serialization for a run of columns. -/
theorem parseColumns_serialized (cs : List Column) (rest : List Token) :
    parseColumns cs.length ((cs.map serializeColumn).flatten ++ rest) =
      some (cs, rest) := by
  induction cs generalizing rest with
  | nil => rfl
  | cons c cs ih =>
    simp [parseColumns, List.append_assoc, parseColumn_serialized, ih]

/-- Deserialization inverts serialization for a whole block. -/
theorem deserializeBlock_serialized (b : Block) (rest : List Token) :
    deserializeBlock (serializeBlock b ++ rest) = some (b, rest) := by
  simp [serializeBlock, deserializeBlock, parseColumns_serialized]

/-- Undoing the compression wrapper with the same mode recovers the payload. -/
theorem decompressTokens_compressTokens (m : Compression) (ts : List Token) :
    decompressTokens m (compressTokens m ts) = some ts := by
  cases m <;> simp [compressTokens, decompressTokens]

/-- Reading back a written block recovers it (shared round-trip lemma). -/
theorem readBlock_writeBlock (m : Compression) (b : Block) :
    readBlock m (writeBlock m b) = some b := by
  have hd := deserializeBlock_serialized b []
  rw [List.append_nil] at hd
  simp [readBlock, writeBlock, decompressTokens_compressTokens, hd]

/-- Claim C7: for every block and every compression mode, writing the block
through the block-output codec and reading the bytes back through the
block-input codec with the same mode reproduces the identical block —
identical column data and identical row count. -/
theorem block_codec_round_trip (m : Compression) (b : Block) :
    readBlock m (writeBlock m b) = some b ∧
    (readBlock m (writeBlock m b)).map Block.rowCount = some b.rowCount := by
  have h := readBlock_writeBlock m b
  exact ⟨h, by rw [h]; rfl⟩

/-- Claim C6: in skipping mode, a stream of data packets written with the
compression mode remembered in `last_block_in`, followed by the terminal
empty data block, is wholly decoded and discarded; `skipData` returns
exactly the remaining stream, so the byte stream stays framed and the next
query on the connection still parses. -/
theorem skipData_discards_and_preserves_framing
    (m : Compression) (bs : List Block) (rest : List ClientPacket)
    (hne : ∀ b ∈ bs, b ≠ ([] : Block)) :
    skipData ⟨m⟩
      (bs.map (fun b => ClientPacket.dataPacket (writeBlock m b)) ++
        (ClientPacket.dataPacket (writeBlock m []) :: rest)) = some rest := by
  induction bs with
  | nil =>
    simp [skipData, readBlock_writeBlock]
  | cons b bs ih =>
    have hb : b ≠ ([] : Block) := hne b (List.mem_cons_self b bs)
    have hrest : ∀ x ∈ bs, x ≠ ([] : Block) :=
      fun x hx => hne x (List.mem_cons_of_mem b hx)
    simp only [List.map_cons, List.cons_append, skipData, readBlock_writeBlock]
    rw [if_neg hb]
    exact ih hrest

/-- Witness for C6: a concrete compressed two-block insert stream followed
by the terminal empty block and a follow-up query packet is skipped down to
exactly the follow-up query packet. -/
theorem skipData_discards_and_preserves_framing_witness :
    skipData ⟨.Enable⟩
      ([[⟨"a", "UInt64", [1, 2]⟩], [⟨"a", "UInt64", [3]⟩]].map
          (fun b => ClientPacket.dataPacket (writeBlock .Enable b)) ++
        (ClientPacket.dataPacket (writeBlock .Enable []) ::
          [ClientPacket.queryPacket
            ⟨"id2", "SELECT 1", ⟨false, false, "SELECT 1"⟩, .Complete,
              .Disable, false⟩])) =
      some [ClientPacket.queryPacket
        ⟨"id2", "SELECT 1", ⟨false, false, "SELECT 1"⟩, .Complete,
          .Disable, false⟩] :=
  skipData_discards_and_preserves_framing .Enable
    [[⟨"a", "UInt64", [1, 2]⟩], [⟨"a", "UInt64", [3]⟩]]
    [ClientPacket.queryPacket
      ⟨"id2", "SELECT 1", ⟨false, false, "SELECT 1"⟩, .Complete,
        .Disable, false⟩]
    (by decide)

/-- No mid-query event maps to a terminal packet. -/
theorem toPacket_not_terminal (e : StreamEvent) :
    e.toPacket.isTerminal = false := by
  cases e <;> rfl

/-- No packet of the pre-terminal sequence is terminal. -/
theorem preTerminalPackets_not_terminal (o : QueryOutcome) :
    (preTerminalPackets o).all (fun q => !q.isTerminal) = true := by
  cases o with
  | success t e hpi => cases t <;> cases e <;> cases hpi <;> rfl
  | cancelled => rfl
  | fault c msg => rfl

/-- Claim C3: the packet trace of every query that entered
EXECUTING/SENDING_RESULTS splits as non-terminal packets followed by exactly
one terminal packet (`EndOfStream` or `Exception`), which is therefore the
last packet of the query — no result, log, progress or profile packet
follows it — and the query state after the trace is the reset (freshly
default-constructed) state. -/
theorem query_trace_single_terminal
    (events : List StreamEvent) (o : QueryOutcome) (s : QueryState) :
    ∃ pre last,
      (runQueryStreaming events o s).1 = pre ++ [last] ∧
      last.isTerminal = true ∧
      (∀ q ∈ pre, q.isTerminal = false) ∧
      (runQueryStreaming events o s).2 = ({} : QueryState) := by
  refine ⟨events.map StreamEvent.toPacket ++ preTerminalPackets o,
    terminalPacket o, ?_, ?_, ?_, rfl⟩
  · simp [runQueryStreaming, terminalPackets, List.append_assoc]
  · cases o <;> rfl
  · intro q hq
    rcases List.mem_append.mp hq with h | h
    · rcases List.mem_map.mp h with ⟨e, _, rfl⟩
      exact toPacket_not_terminal e
    · have := List.all_eq_true.mp (preTerminalPackets_not_terminal o) q h
      simpa using this

/-- One scheduler step preserves the serialization invariant. -/
theorem wireStep_preserves_inv (ps : List (List Nat)) (s s' : WireSys)
    (h : WireStep s s') (hinv : WireInv ps s) : WireInv ps s' := by
  obtain ⟨hwire, hsent, hhold, hqueues⟩ := hinv
  cases h with
  | acquire i pkt rest hfree hq =>
    have hmem : (pkt :: rest) ∈ s.threads := List.get?_mem hq
    refine ⟨?_, hsent, ?_, ?_⟩
    · simpa [holderWritten, hfree] using hwire
    · intro w r hw
      simp only [Option.some.injEq, Prod.mk.injEq] at hw
      obtain ⟨rfl, rfl⟩ := hw
      simpa using hqueues _ hmem pkt (List.mem_cons_self pkt rest)
    · intro q hqmem p hp
      rcases List.mem_or_eq_of_mem_set hqmem with hold | rfl
      · exact hqueues q hold p hp
      · exact hqueues _ hmem p (List.mem_cons_of_mem pkt hp)
  | writeByte w b bs hh =>
    refine ⟨?_, hsent, ?_, hqueues⟩
    · have : s.wire = s.sent.flatten ++ w := by
        simpa [holderWritten, hh] using hwire
      simp [holderWritten, this, List.append_assoc]
    · intro w' r' hw
      simp only [Option.some.injEq, Prod.mk.injEq] at hw
      obtain ⟨rfl, rfl⟩ := hw
      have := hhold w (b :: bs) hh
      simpa [List.append_assoc] using this
  | release w hh =>
    refine ⟨?_, ?_, ?_, hqueues⟩
    · have : s.wire = s.sent.flatten ++ w := by
        simpa [holderWritten, hh] using hwire
      simp [holderWritten, this]
    · intro p hp
      rcases List.mem_append.mp hp with hold | hnew
      · exact hsent p hold
      · rcases List.mem_singleton.mp hnew with rfl
        simpa using hhold p [] hh
    · intro w' r' hw
      simp at hw

/-- The serialization invariant holds in every state reachable from a
pristine connection. -/
theorem wireReachable_inv (init s : WireSys)
    (h0 : init.holder = none) (hw : init.wire = []) (hs : init.sent = [])
    (hr : WireReachable init s) : WireInv (allPackets init) s := by
  induction hr with
  | refl =>
    refine ⟨by simp [holderWritten, h0, hw, hs], by simp [hs], ?_, ?_⟩
    · intro w r hcontra
      rw [h0] at hcontra
      exact absurd hcontra (by simp)
    · intro q hq p hp
      exact List.mem_flatten.mpr ⟨q, hq, hp⟩
  | tail _ hstep ih => exact wireStep_preserves_inv _ _ _ hstep ih

/-- Claim C8: all writes to the outbound socket, from whichever thread, are
serialized through the `out_mutex` critical section: in any reachable
quiescent state (mutex free) the wire is exactly a concatenation of whole
packets, each of which is one of the packets the threads attempted to send —
no interleaved or split packet framing. -/
theorem out_mutex_serializes_writes (init s : WireSys)
    (h0 : init.holder = none) (hw : init.wire = []) (hs : init.sent = [])
    (hr : WireReachable init s) (hqui : s.holder = none) :
    s.wire = s.sent.flatten ∧ ∀ p ∈ s.sent, p ∈ allPackets init := by
  have hinv := wireReachable_inv init s h0 hw hs hr
  refine ⟨?_, hinv.2.1⟩
  have h1 := hinv.1
  simpa [holderWritten, hqui] using h1

/-- Witness for C8: a run in which one thread acquires the mutex, writes its
two-byte packet, and releases, while a second thread's packet is still
queued, puts exactly the whole first packet on the wire. -/
theorem out_mutex_serializes_writes_witness :
    (⟨[[], [[3]]], none, [1, 2], [[1, 2]]⟩ : WireSys).wire =
      (⟨[[], [[3]]], none, [1, 2], [[1, 2]]⟩ : WireSys).sent.flatten :=
  (out_mutex_serializes_writes
    ⟨[[[1, 2]], [[3]]], none, [], []⟩
    ⟨[[], [[3]]], none, [1, 2], [[1, 2]]⟩
    rfl rfl rfl
    (Relation.ReflTransGen.tail
      (Relation.ReflTransGen.tail
        (Relation.ReflTransGen.tail
          (Relation.ReflTransGen.tail Relation.ReflTransGen.refl
            (WireStep.acquire ⟨[[[1, 2]], [[3]]], none, [], []⟩ 0 [1, 2] []
              rfl rfl))
          (WireStep.writeByte ⟨[[], [[3]]], some ([], [1, 2]), [], []⟩ [] 1 [2]
            rfl))
        (WireStep.writeByte ⟨[[], [[3]]], some ([1], [2]), [1], []⟩ [1] 2 []
          rfl))
      (WireStep.release ⟨[[], [[3]]], some ([1, 2], []), [1, 2], []⟩ [1, 2]
        rfl))
    rfl).1
